import Mathlib

/-!
Verification development for the `qp_fastp_minimap2` job-submission plugin
(`qp_fastp_minimap2/qp_fastp_minimap2.py`).  The Python module is shallowly
embedded: strings are Lean `String`s manipulated at the `List Char` level,
fallible Python code returns `Except PyErr`, and the two external side effects
(the reference-directory listing and the prep-info table) are passed in as
explicit values (a list of file names, a list of column names).
-/

/-- Error classes raised by the embedded Python code.  `valueError` covers the
explicit `raise ValueError(...)` for configuration problems, `keyError` the
`DataFrame.set_index` failure on a missing column, `indexError` the `[...][0]`
lookup on an empty list, and `typeError` a function call whose positional
argument count does not match the callee's parameter count (Python raises
`TypeError` in that situation before entering the callee). -/
inductive PyErr where
  | typeError : PyErr
  | valueError : String → PyErr
  | keyError : String → PyErr
  | indexError : PyErr
deriving DecidableEq, Repr

/-- Dynamic values appearing as positional arguments at the embedded call
sites: strings, lists of strings, `None`, and integers. -/
inductive PyVal where
  | vstr : String → PyVal
  | vstrList : List String → PyVal
  | vnone : PyVal
  | vnat : Nat → PyVal
deriving DecidableEq, Repr

/-- Split a character list at every character satisfying `p`, keeping empty
pieces (the splitting characters are dropped), as Python's `str.split(sep)`
does for a one-character separator.  The result is never empty. -/
def splitOnP (p : Char → Bool) : List Char → List (List Char)
  | [] => [[]]
  | c :: cs =>
    if p c then [] :: splitOnP p cs
    else
      match splitOnP p cs with
      | [] => [[c]]
      | y :: ys => (c :: y) :: ys

/-- Join character lists with a single separator character between pieces,
as Python's `sep.join(...)` does for a one-character separator. -/
def joinWith (c : Char) : List (List Char) → List Char
  | [] => []
  | [l] => l
  | l :: l' :: ls => l ++ c :: joinWith c (l' :: ls)

/-- `'\n'.join(strings)`, at the character level. -/
def strJoinNL (l : List String) : String :=
  String.mk (joinWith '\n' (l.map String.data))

/-- Python's `os.path.basename`: the suffix of the path after the last `/`. -/
def basename (s : String) : String :=
  String.mk ((s.data.reverse.takeWhile (fun c => c != '/')).reverse)

/-- Whether `b` starts with a `/` (an absolute second component for
`os.path.join`). -/
def startsWithSlash (b : String) : Bool :=
  match b.data with
  | [] => false
  | c :: _ => c = '/'

/-- Whether `a` ends with a `/`. -/
def endsWithSlash (a : String) : Bool :=
  match a.data.reverse with
  | [] => false
  | c :: _ => c = '/'

/-- Python's `os.path.join(a, b)` restricted to the two-argument form used in
the module: an absolute `b` wins, otherwise `b` is appended to `a` with a
single separating `/`. -/
def joinPath (a b : String) : String :=
  if startsWithSlash b then b
  else if a.data.isEmpty then b
  else if endsWithSlash a then a ++ b
  else a ++ "/" ++ b

/-- Python's `needle in hay` substring test, at the character level. -/
def charsContain (needle : List Char) : List Char → Bool
  | [] => needle.isEmpty
  | c :: cs => needle.isPrefixOf (c :: cs) || charsContain needle cs

/-- Python's `needle in hay` test on strings. -/
def strContains (hay needle : String) : Bool :=
  charsContain needle.data hay.data

/-- `s.endswith(suffix)` on strings. -/
def strEndsWith (s suffix : String) : Bool :=
  suffix.data.isSuffixOf s.data

/-- `s.startswith(p)` on strings. -/
def strStartsWith (s p : String) : Bool :=
  p.data.isPrefixOf s.data

/-- Module constant `MEMORY = '16g'`. -/
def MEMORY : String := "16g"

/-- Module constant `WALLTIME = '30:00:00'`. -/
def WALLTIME : String := "30:00:00"

/-- Module constant `FINISH_MEMORY = '10g'`. -/
def FINISH_MEMORY : String := "10g"

/-- Module constant `FINISH_WALLTIME = '10:00:00'`. -/
def FINISH_WALLTIME : String := "10:00:00"

/-- Module constant `MAX_RUNNING = 8`, the array-job concurrency cap. -/
def MAX_RUNNING : Nat := 8

/-- The template `COMBINED_CMD` with its `.format` fields (`nprocs`,
`database`, `out_dir`) and its four `%s` slots filled in.  The literal chunks
are exactly those of the Python template
`f'{FASTP_BASE} -I %s --stdout | {MINIMAP2_BASE} | ' '{out_dir}/%s -2 {out_dir}/%s'`
(note the double spaces left by the trailing spaces of `FASTP_BASE` and
`MINIMAP2_BASE`); the grouping is to the right so that the fixed leading chunk
is syntactically outermost. -/
def COMBINED_CMD_filled (nprocs database out_dir s1 s2 s3 s4 : String) : String :=
  "fastp -l 100 -i " ++ (s1 ++ (" -w " ++ (nprocs ++ ("  -I " ++ (s2 ++
    (" --stdout | minimap2 -ax sr -t " ++ (nprocs ++ (" " ++ (database ++
    (" - -a  | " ++ (out_dir ++ ("/" ++ (s3 ++ (" -2 " ++ (out_dir ++ ("/" ++ s4))))))))))))))))

/-- The template `FASTP_CMD` (`' '.join([FASTP_BASE, '-I %s -o {out_dir}/%s -O {out_dir}/%s'])`)
with its `.format` fields and `%s` slots filled in. -/
def FASTP_CMD_filled (nprocs out_dir s1 s2 s3 s4 : String) : String :=
  "fastp -l 100 -i " ++ (s1 ++ (" -w " ++ (nprocs ++ ("  -I " ++ (s2 ++
    (" -o " ++ (out_dir ++ ("/" ++ (s3 ++ (" -O " ++ (out_dir ++ ("/" ++ s4))))))))))))

/-- The template `FASTP_CMD_SINGLE` (`f'{FASTP_BASE} -o ' '{out_dir}/%s'`)
with its `.format` fields and `%s` slots filled in. -/
def FASTP_CMD_SINGLE_filled (nprocs out_dir s1 s2 : String) : String :=
  "fastp -l 100 -i " ++ (s1 ++ (" -w " ++ (nprocs ++ ("  -o " ++ (out_dir ++ ("/" ++ s2))))))

/-- The template `COMBINED_CMD_SINGLE`
(`f'{FASTP_BASE} --stdout | {MINIMAP2_BASE} | ' '{out_dir}/%s'`) with its
`.format` fields and `%s` slots filled in. -/
def COMBINED_CMD_SINGLE_filled (nprocs database out_dir s1 s2 : String) : String :=
  "fastp -l 100 -i " ++ (s1 ++ (" -w " ++ (nprocs ++ ("  --stdout | minimap2 -ax sr -t " ++
    (nprocs ++ (" " ++ (database ++ (" - -a  | " ++ (out_dir ++ ("/" ++ s2))))))))))

/-- A command string is an instance of one of the four fastp/minimap2 pipeline
variants: some substitution of `.format` fields and `%s` slots into
`COMBINED_CMD`, `FASTP_CMD`, `FASTP_CMD_SINGLE` or `COMBINED_CMD_SINGLE`
produces it. -/
def IsFourVariantInstance (cmd : String) : Prop :=
  (∃ n d o s1 s2 s3 s4, cmd = COMBINED_CMD_filled n d o s1 s2 s3 s4) ∨
  (∃ n o s1 s2 s3 s4, cmd = FASTP_CMD_filled n o s1 s2 s3 s4) ∨
  (∃ n o s1 s2, cmd = FASTP_CMD_SINGLE_filled n o s1 s2) ∨
  (∃ n d o s1 s2, cmd = COMBINED_CMD_SINGLE_filled n d o s1 s2)

/-- The template `IVAR_TRIM_CMD`
(`' '.join([IVAR_TRIM_BASE, '-p {out_dir}/%s'])`, that is
`'ivar trim -x {nprocs} -e -b {primer} -i %s -p {out_dir}/%s'`) with its
`.format` fields (`nprocs`, `primer`, `out_dir`) and its two `%s` slots
(`bam`, `fname`) filled in. -/
def IVAR_TRIM_CMD_filled (nprocs primer out_dir bam fname : String) : String :=
  "ivar trim -x " ++ nprocs ++ " -e -b " ++ primer ++ " -i " ++ bam ++
    " -p " ++ out_dir ++ "/" ++ fname

/-- Embedding of `_generate_commands(bam_file, primer, nprocs, out_dir)`
(lines 47-61).  The Python loop appends one command and one
`(f'{out_dir}/{fname}', 'trimmed')` manifest entry per element of `bam_file`,
in order; the loop is rendered as structural recursion producing the two lists
in the same order.  The `.format` values are strings, as produced by Python's
string formatting. -/
def generate_commands : List String → String → String → String →
    List String × List (String × String)
  | [], _, _, _ => ([], [])
  | bam :: rest, primer, nprocs, out_dir =>
    let fname := basename bam
    let r := generate_commands rest primer nprocs out_dir
    (IVAR_TRIM_CMD_filled nprocs primer out_dir bam fname :: r.1,
     (out_dir ++ "/" ++ fname, "trimmed") :: r.2)

/-- Embedding of `glob(f'{folder}/*.bed')` (line 44): the external directory
is abstracted by `listing`, the list of plain file names it contains, in the
order the operating system reports them; the glob keeps the names matching
`*.bed` (hidden names, starting with a dot, are not matched by `*`) and
returns them as paths under `folder`. -/
def glob_bed (folder : String) (listing : List String) : List String :=
  (listing.filter (fun n => strEndsWith n ".bed" && !(strStartsWith n "."))).map
    (fun n => folder ++ "/" ++ n)

/-- Embedding of `get_dbs_list()` (lines 40-44): the base name of every
`*.bed` file in the reference directory.  The directory contents stand in for
the `QC_REFERENCE_DB` environment variable's directory. -/
def get_dbs_list (folder : String) (listing : List String) : List String :=
  (glob_bed folder listing).map basename

/-- Embedding of the reference resolution at lines 127-131:
`database = None`; when `params['reference'] != 'None'`, the list
comprehension keeps every catalog entry containing the requested name as a
substring, maps it to `join(QC_REFERENCE_DB, db)`, and takes element `[0]` --
which raises `IndexError` when no entry matches and silently yields the first
match otherwise. -/
def resolve_reference (qc_ref_db : String) (listing : List String)
    (reference : String) : Except PyErr (Option String) :=
  if reference = "None" then .ok none
  else
    match ((get_dbs_list qc_ref_db listing).filter
        (fun db => strContains db reference)).map (fun db => joinPath qc_ref_db db) with
    | [] => .error .indexError
    | p :: _ => .ok (some p)

/-- Helper for Python's `str` of a list of strings: the comma-separated,
quoted rendering between the brackets, `\x27a\x27, \x27b\x27`. -/
def joinCommaQuoted : List String → String
  | [] => ""
  | [s] => "\x27" ++ s ++ "\x27"
  | s :: s' :: rest => "\x27" ++ s ++ "\x27, " ++ joinCommaQuoted (s' :: rest)

/-- Python's `str` of a `PyVal`. -/
def pyStr : PyVal → String
  | .vstr s => s
  | .vstrList l => "[" ++ joinCommaQuoted l ++ "]"
  | .vnone => "None"
  | .vnat n => toString n

/-- The database value (`None` or a path) as a dynamic argument value. -/
def pyvalOfOpt : Option String → PyVal
  | none => .vnone
  | some s => .vstr s

/-- Python call semantics for `_generate_commands` at a call site handing over
a list of positional arguments: the callee declares exactly four positional
parameters (`bam_file`, `primer`, `nprocs`, `out_dir`), so a call whose
argument count differs raises `TypeError` without entering the body; with four
arguments the body runs, iterating the first argument (a non-list first
argument would equally fail with `TypeError` when iterated, so it is folded
into the same error class) and string-formatting the other three. -/
def call_generate_commands : List PyVal → Except PyErr (List String × List (String × String))
  | [PyVal.vstrList bam_file, primer, nprocs, out_dir] =>
    .ok (generate_commands bam_file (pyStr primer) (pyStr nprocs) (pyStr out_dir))
  | _ => .error .typeError

/-- Stable insertion of a string into a sorted list, comparing by Lean's
lexicographic order on strings (Python's `sorted` also compares strings
lexicographically by code point). -/
def sortedInsert (x : String) : List String → List String
  | [] => [x]
  | y :: ys => if x ≤ y then x :: y :: ys else y :: sortedInsert x ys

/-- Embedding of Python's `sorted(...)` on a list of strings. -/
def pySorted (l : List String) : List String :=
  l.foldr sortedInsert []

/-- `join(out_dir, 'fastp_minimap2.array-details')` (line 152). -/
def details_name (out_dir : String) : String :=
  joinPath out_dir "fastp_minimap2.array-details"

/-- The content written to the details file (line 154):
`'\n'.join(commands)`, one command per line. -/
def detailsContent (commands : List String) : String :=
  strJoinNL commands

/-- Embedding of the `lines = [...]` list for the main array-job qsub script
(lines 159-180).  `n_jobs = len(commands)` and `PPN = params['threads']` are
passed in; `$\x7b...\x7d` shell text is kept verbatim. -/
def mainQsubLines (n_jobs ppn : Nat) (environment out_dir job_id details_fp : String) :
    List String :=
  ["#!/bin/bash",
   "#PBS -M qiita.help@gmail.com",
   "#PBS -N " ++ job_id,
   "#PBS -l nodes=1:ppn=" ++ toString ppn,
   "#PBS -l walltime=" ++ WALLTIME,
   "#PBS -l mem=" ++ MEMORY,
   "#PBS -o " ++ out_dir ++ "/" ++ job_id ++ "_$\x7bPBS_ARRAYID\x7d.log",
   "#PBS -e " ++ out_dir ++ "/" ++ job_id ++ "_$\x7bPBS_ARRAYID\x7d.err",
   "#PBS -t 1-" ++ toString n_jobs ++ "%" ++ toString MAX_RUNNING,
   "#PBS -l epilogue=/home/qiita/qiita-epilogue.sh",
   "set -e",
   "cd " ++ out_dir,
   environment,
   "date",
   "hostname",
   "echo $\x7bPBS_JOBID\x7d $\x7bPBS_ARRAYID\x7d",
   "offset=$\x7bPBS_ARRAYID\x7d",
   "step=$(( $offset - 0 ))",
   "cmd=$(head -n $step " ++ details_fp ++ " | tail -n 1)",
   "eval $cmd",
   "set +e",
   "date"]

/-- Embedding of the `lines = [...]` list for the finish qsub script
(lines 187-203).  The last Python element is the implicit concatenation
`f'finish_qp_fastp_minimap2 {url} {job_id} {out_dir}\n' "date"`, a single
string with an embedded newline. -/
def finishQsubLines (environment out_dir url job_id : String) : List String :=
  ["#!/bin/bash",
   "#PBS -M qiita.help@gmail.com",
   "#PBS -N finish-" ++ job_id,
   "#PBS -l nodes=1:ppn=1",
   "#PBS -l walltime=" ++ FINISH_WALLTIME,
   "#PBS -l mem=" ++ FINISH_MEMORY,
   "#PBS -o " ++ out_dir ++ "/finish-" ++ job_id ++ ".log",
   "#PBS -e " ++ out_dir ++ "/finish-" ++ job_id ++ ".err",
   "#PBS -l epilogue=/home/qiita/qiita-epilogue.sh",
   "set -e",
   "cd " ++ out_dir,
   environment,
   "date",
   "hostname",
   "echo $PBS_JOBID",
   "finish_qp_fastp_minimap2 " ++ url ++ " " ++ job_id ++ " " ++ out_dir ++ "\ndate"]

/-- The content of the two-column output manifest file (line 211):
`'\n'.join([f'{fp}\t{ft}' for fp, ft in out_files])`. -/
def outFilesTsv (out_files : List (String × String)) : String :=
  strJoinNL (out_files.map (fun e => e.1 ++ "\t" ++ e.2))

/-- The four files written by `fastp_minimap2_to_array` after the command
builder returns (lines 151-213), each as a path paired with the exact content
written, plus the returned triple of paths. -/
structure ScriptFiles where
  details_fp : String
  details : String
  main_qsub_fp : String
  main_qsub : String
  finish_qsub_fp : String
  finish_qsub : String
  out_files_fp : String
  out_files_tsv : String
deriving DecidableEq, Repr

/-- Embedding of lines 151-213 of `fastp_minimap2_to_array`: the details
file, the main array-job qsub script, the finish qsub script and the output
manifest.  The qsub contents append a final newline after the joined lines,
as the source does with the extra `job.write('\n')`. -/
def emit_scripts (commands : List String) (out_files : List (String × String))
    (threads : Nat) (environment out_dir url job_id : String) : ScriptFiles :=
  { details_fp := details_name out_dir
    details := detailsContent commands
    main_qsub_fp := joinPath out_dir (job_id ++ ".qsub")
    main_qsub := strJoinNL (mainQsubLines commands.length threads environment
      out_dir job_id (details_name out_dir)) ++ "\n"
    finish_qsub_fp := joinPath out_dir (job_id ++ ".finish.qsub")
    finish_qsub := strJoinNL (finishQsubLines environment out_dir url job_id) ++ "\n"
    out_files_fp := joinPath out_dir (job_id ++ ".out_files.tsv")
    out_files_tsv := outFilesTsv out_files }

/-- Embedding of `fastp_minimap2_to_array(files, out_dir, params, prep_info,
url, job_id)` (lines 104-213).  The `files` dict is given by its documented
shape: the `raw_forward_seqs` list and the optional `raw_reverse_seqs` list;
`params` by its `reference`, `threads` and `environment` entries; the
prep-info table by its column list (reading the tab-separated file itself is
pure parsing with no decision logic).  The steps follow source order:
reference resolution, sorting of the two file lists, `set_index('sample_name')`
(a `KeyError` when the column is absent), the `run_prefix` presence check
(an explicit `ValueError`), then the call
`_generate_commands(fwd_seqs, rev_seqs, database, params['threads'], out_dir)`
with five positional arguments, and finally the script emission.  An error
anywhere aborts the function before any later file is written; the `ok`
result carries the written files and the returned path triple. -/
def fastp_minimap2_to_array (fwd_files : List String)
    (rev_files : Option (List String)) (reference : String) (threads : Nat)
    (environment : String) (prep_columns : List String) (qc_ref_db : String)
    (listing : List String) (out_dir url job_id : String) :
    Except PyErr ScriptFiles :=
  match resolve_reference qc_ref_db listing reference with
  | .error e => .error e
  | .ok database =>
    let fwd_seqs := pySorted fwd_files
    let rev_seqs := match rev_files with
      | some r => pySorted r
      | none => []
    if "sample_name" ∈ prep_columns then
      if "run_prefix" ∈ prep_columns then
        match call_generate_commands
            [PyVal.vstrList fwd_seqs, PyVal.vstrList rev_seqs,
             pyvalOfOpt database, PyVal.vnat threads, PyVal.vstr out_dir] with
        | .error e => .error e
        | .ok (commands, out_files) =>
          .ok (emit_scripts commands out_files threads environment out_dir url job_id)
      else .error (.valueError "Missing run_prefix column in your preparation")
    else .error (.keyError "sample_name")

/-- Characters treated as whitespace by Python's `str.split()` with no
arguments (the ASCII ones; the manifest lines contain only ASCII). -/
def isPyWs (c : Char) : Bool :=
  c == ' ' || c == '\t' || c == '\n' || c == '\x0b' || c == '\x0c' || c == '\r'

/-- Python's `str.split()` with no arguments: split on whitespace runs,
discarding empty fields (hence also leading and trailing whitespace). -/
def pySplitWs (l : List Char) : List (List Char) :=
  (splitOnP isPyWs l).filter (fun x => !x.isEmpty)

/-- The lines of a file's content, `'\n'`-separated pieces with the
separators dropped. -/
def splitLines (s : String) : List (List Char) :=
  splitOnP (fun c => c == '\n') s.data

/-- Drop one trailing empty piece, if present. -/
def dropLastEmpty (l : List (List Char)) : List (List Char) :=
  match l.reverse with
  | [] :: rest => rest.reverse
  | _ => l

/-- Python's `f.readlines()` on a file holding `s`, composed with the
newline-stripping that the subsequent `line.split()` performs anyway: the
`'\n'`-separated pieces of `s`, except that no empty piece follows a final
newline (readlines yields no trailing empty line). -/
def pyReadlines (s : String) : List (List Char) :=
  dropLastEmpty (splitLines s)

/-- The read-back loop of `fastp_minimap2` (lines 91-94): for each line,
`fp, ft = line.split()` -- a `ValueError` unless the line splits into exactly
two whitespace-free fields -- and the pairs accumulate in file order. -/
def linesToPairs : List (List Char) → Except PyErr (List (String × String))
  | [] => .ok []
  | line :: rest =>
    match pySplitWs line with
    | [fp, ft] =>
      match linesToPairs rest with
      | .ok l => .ok ((String.mk fp, String.mk ft) :: l)
      | .error e => .error e
    | _ => .error (.valueError "unpack")

/-- The artifact descriptor returned to the orchestrating host
(`qiita_client.ArtifactInfo`). -/
structure ArtifactInfo where
  artifact_name : String
  artifact_type : String
  files : List (String × String)
deriving DecidableEq, Repr

/-- Embedding of the finishing step `fastp_minimap2(qclient, job_id,
parameters, out_dir)` (lines 64-101), abstracted over the content of
`{out_dir}/{job_id}.out_files.tsv` (its only input with decision content; the
two `update_job_step` host calls carry no data flow).  It reads the manifest
back and returns `(True, [ArtifactInfo('Filtered files', 'per_sample_FASTQ',
out_files)], "")`. -/
def fastp_minimap2 (out_files_content : String) :
    Except PyErr (Bool × List ArtifactInfo × String) :=
  match linesToPairs (pyReadlines out_files_content) with
  | .error e => .error e
  | .ok out_files =>
    .ok (true, [⟨"Filtered files", "per_sample_FASTQ", out_files⟩], "")

/-- The shell pipeline `head -n k file | tail -n 1` over a file holding
`content`: the last of the first `k` lines. -/
def shellHeadTail (k : Nat) (content : String) : Option (List Char) :=
  ((splitOnP (fun c => c == '\n') content.data).take k).getLast?

/-- The manifest shape asserted for the paired case: some split point `k`
separates a leading contiguous block of forward-role entries from a trailing
contiguous block of reverse-role entries (the role labels used by the module's
tests and by the finishing artifact are `raw_forward_seqs` and
`raw_reverse_seqs`). -/
def RoleGrouped (m : List (String × String)) : Prop :=
  ∃ k, (∀ e ∈ m.take k, e.2 = "raw_forward_seqs") ∧
       (∀ e ∈ m.drop k, e.2 = "raw_reverse_seqs")

theorem string_data_append (a b : String) : (a ++ b).data = a.data ++ b.data := by
  cases a
  cases b
  rfl

theorem string_mk_data (s : String) : String.mk s.data = s := by
  cases s
  rfl

theorem splitOnP_ne_nil (p : Char → Bool) (l : List Char) : splitOnP p l ≠ [] := by
  cases l with
  | nil => simp [splitOnP]
  | cons c cs =>
    simp only [splitOnP]
    split
    · simp
    · split
      · simp
      · simp

theorem splitOnP_cons_pos (p : Char → Bool) (c : Char) (l : List Char) (h : p c = true) :
    splitOnP p (c :: l) = [] :: splitOnP p l := by
  simp [splitOnP, h]

theorem splitOnP_append (p : Char → Bool) (l r : List Char) {y : List Char}
    {ys : List (List Char)} (hl : ∀ x ∈ l, p x = false) (hr : splitOnP p r = y :: ys) :
    splitOnP p (l ++ r) = (l ++ y) :: ys := by
  induction l with
  | nil => simpa using hr
  | cons c l ih =>
    have hc : p c = false := hl c (List.mem_cons_self c l)
    have ih' := ih (fun x hx => hl x (List.mem_cons_of_mem c hx))
    simp only [List.cons_append, splitOnP, hc, Bool.false_eq_true, if_false]
    have hra : l.append r = l ++ r := rfl
    rw [hra, ih']

theorem splitOnP_clean (p : Char → Bool) (l : List Char) (hl : ∀ x ∈ l, p x = false) :
    splitOnP p l = [l] := by
  have h := splitOnP_append p l [] hl (show splitOnP p [] = [] :: [] from rfl)
  simpa using h

theorem splitOnP_joinWith (p : Char → Bool) (c : Char) (hc : p c = true) :
    ∀ pieces : List (List Char), pieces ≠ [] →
      (∀ l ∈ pieces, ∀ x ∈ l, p x = false) →
      splitOnP p (joinWith c pieces) = pieces := by
  intro pieces
  induction pieces with
  | nil => intro h; exact absurd rfl h
  | cons a rest ih =>
    intro _ hclean
    cases rest with
    | nil =>
      simp only [joinWith]
      exact splitOnP_clean p a (hclean a (List.mem_cons_self a []))
    | cons b rest' =>
      have hrec : splitOnP p (joinWith c (b :: rest')) = b :: rest' :=
        ih (by simp) (fun l hl => hclean l (List.mem_cons_of_mem a hl))
      have hinner : splitOnP p (c :: joinWith c (b :: rest')) = [] :: b :: rest' := by
        rw [splitOnP_cons_pos p c _ hc, hrec]
      have happ := splitOnP_append p a (c :: joinWith c (b :: rest'))
        (hclean a (List.mem_cons_self a _)) hinner
      simpa [joinWith] using happ

theorem takeWhile_append_stop (p : Char → Bool) (l : List Char) (c : Char)
    (r : List Char) (hl : ∀ x ∈ l, p x = true) (hc : p c = false) :
    (l ++ c :: r).takeWhile p = l := by
  induction l with
  | nil => simp [List.takeWhile_cons, hc]
  | cons a l ih =>
    have ha : p a = true := hl a (List.mem_cons_self a l)
    have := ih (fun x hx => hl x (List.mem_cons_of_mem a hx))
    simp [List.takeWhile_cons, ha, this]

theorem basename_append (folder n : String) (h : ∀ c ∈ n.data, (c != '/') = true) :
    basename (folder ++ "/" ++ n) = n := by
  unfold basename
  have hdata : (folder ++ "/" ++ n).data = (folder.data ++ ['/']) ++ n.data := by
    rw [string_data_append, string_data_append]
  rw [hdata]
  have hrev : ((folder.data ++ ['/']) ++ n.data).reverse =
      n.data.reverse ++ '/' :: folder.data.reverse := by
    simp
  rw [hrev]
  have hstop : (n.data.reverse ++ '/' :: folder.data.reverse).takeWhile
      (fun c => c != '/') = n.data.reverse := by
    refine takeWhile_append_stop _ _ _ _ ?_ ?_
    · intro x hx
      exact h x (List.mem_reverse.mp hx)
    · simp
  rw [hstop, List.reverse_reverse, string_mk_data]

theorem generate_commands_eq_map (files : List String) (primer nprocs out_dir : String) :
    generate_commands files primer nprocs out_dir =
      (files.map (fun bam => IVAR_TRIM_CMD_filled nprocs primer out_dir bam (basename bam)),
       files.map (fun bam => (out_dir ++ "/" ++ basename bam, "trimmed"))) := by
  induction files with
  | nil => rfl
  | cons bam rest ih =>
    simp only [generate_commands, ih, List.map_cons]

theorem fourVariant_starts_fastp (cmd : String) (h : IsFourVariantInstance cmd) :
    cmd.data.take 16 = ("fastp -l 100 -i ").data := by
  have key : ∀ t : String, (("fastp -l 100 -i " ++ t).data).take 16 =
      ("fastp -l 100 -i ").data := by
    intro t
    rw [string_data_append]
    have hlen : ("fastp -l 100 -i ").data.length = 16 := by decide
    rw [← hlen, List.take_left]
  rcases h with ⟨n, d, o, s1, s2, s3, s4, rfl⟩ | ⟨n, o, s1, s2, s3, s4, rfl⟩ |
    ⟨n, o, s1, s2, rfl⟩ | ⟨n, d, o, s1, s2, rfl⟩
  · exact key _
  · exact key _
  · exact key _
  · exact key _

theorem getLast?_take (l : List α) (k : Nat) (h1 : 1 ≤ k) (h2 : k ≤ l.length) :
    (l.take k).getLast? = l.get? (k - 1) := by
  induction l generalizing k with
  | nil => simp at h2; omega
  | cons a l ih =>
    cases k with
    | zero => omega
    | succ j =>
      cases j with
      | zero =>
        cases l with
        | nil => rfl
        | cons b l' => rfl
      | succ j' =>
        have hlen : j' + 1 ≤ l.length := by
          have h2' : j' + 1 + 1 ≤ l.length + 1 := by
            simpa [List.length_cons] using h2
          omega
        have hne : l.take (j' + 1) ≠ [] := by
          intro hemp
          have hlt := congrArg List.length hemp
          rw [List.length_take] at hlt
          simp only [List.length_nil] at hlt
          omega
        have ihl := ih (j' + 1) (by omega) hlen
        obtain ⟨b, t', hbt⟩ := List.exists_cons_of_ne_nil hne
        simp only [List.take_succ_cons]
        rw [hbt]
        rw [List.getLast?_cons_cons]
        rw [← hbt, ihl]
        rfl

theorem dropLastEmpty_of_last_ne_nil (l : List (List Char)) (a : Char) (q : List Char)
    (qs : List (List Char)) (h : l.reverse = (a :: q) :: qs) : dropLastEmpty l = l := by
  unfold dropLastEmpty
  rw [h]

theorem pyWs_tab : isPyWs '\t' = true := by decide

theorem pySplitWs_pair (fp ft : List Char) (hfp : ∀ x ∈ fp, isPyWs x = false)
    (hft : ∀ x ∈ ft, isPyWs x = false) (hfpne : fp ≠ []) (hftne : ft ≠ []) :
    pySplitWs (fp ++ '\t' :: ft) = [fp, ft] := by
  unfold pySplitWs
  have hft' : splitOnP isPyWs ft = [ft] := splitOnP_clean _ ft hft
  have htab : splitOnP isPyWs ('\t' :: ft) = [] :: [ft] := by
    rw [splitOnP_cons_pos _ _ _ pyWs_tab, hft']
  have happ := splitOnP_append isPyWs fp ('\t' :: ft) hfp htab
  rw [happ]
  have h1 : fp.isEmpty = false := by
    cases fp with
    | nil => exact absurd rfl hfpne
    | cons _ _ => rfl
  have h2 : ft.isEmpty = false := by
    cases ft with
    | nil => exact absurd rfl hftne
    | cons _ _ => rfl
  simp [List.filter_cons, h1, h2]

theorem isPyWs_false_ne_nl (c : Char) (h : isPyWs c = false) : (c == '\n') = false := by
  unfold isPyWs at h
  simp only [Bool.or_eq_false_iff] at h
  exact h.1.1.1.2

theorem splitLines_join (lines : List String) (hne : lines ≠ [])
    (hnl : ∀ s ∈ lines, ∀ c ∈ s.data, (c == '\n') = false) :
    splitLines (strJoinNL lines) = lines.map String.data := by
  unfold splitLines strJoinNL
  have hdata : (String.mk (joinWith '\n' (lines.map String.data))).data =
      joinWith '\n' (lines.map String.data) := rfl
  rw [hdata]
  refine splitOnP_joinWith _ '\n' (by decide) _ ?_ ?_
  · simp [hne]
  · intro l hl x hx
    obtain ⟨s, hs, rfl⟩ := List.mem_map.mp hl
    exact hnl s hs x hx

theorem pyReadlines_join (lines : List String) (hne : lines ≠ [])
    (hnl : ∀ s ∈ lines, ∀ c ∈ s.data, (c == '\n') = false)
    (hnonempty : ∀ s ∈ lines, s.data ≠ []) :
    pyReadlines (strJoinNL lines) = lines.map String.data := by
  unfold pyReadlines
  rw [splitLines_join lines hne hnl]
  have hrevne : (lines.map String.data).reverse ≠ [] := by
    simp [hne]
  obtain ⟨q, qs, hq⟩ := List.exists_cons_of_ne_nil hrevne
  have hqmem : q ∈ lines.map String.data := by
    have : q ∈ (lines.map String.data).reverse := by
      rw [hq]; exact List.mem_cons_self q qs
    exact List.mem_reverse.mp this
  obtain ⟨s, hs, hsq⟩ := List.mem_map.mp hqmem
  have hqne : q ≠ [] := by
    rw [← hsq]
    exact hnonempty s hs
  obtain ⟨a, q', hq'⟩ := List.exists_cons_of_ne_nil hqne
  exact dropLastEmpty_of_last_ne_nil _ a q' qs (by rw [hq, hq'])

theorem tsv_line_data (e : String × String) :
    (e.1 ++ "\t" ++ e.2).data = e.1.data ++ '\t' :: e.2.data := by
  rw [string_data_append, string_data_append]
  have : ("\t" : String).data = ['\t'] := rfl
  rw [this, List.append_assoc]
  rfl

theorem linesToPairs_map (m : List (String × String))
    (h : ∀ e ∈ m, e.1.data ≠ [] ∧ e.2.data ≠ [] ∧
      (∀ c ∈ e.1.data, isPyWs c = false) ∧ (∀ c ∈ e.2.data, isPyWs c = false)) :
    linesToPairs (m.map (fun e => (e.1 ++ "\t" ++ e.2).data)) = .ok m := by
  induction m with
  | nil => rfl
  | cons e m ih =>
    obtain ⟨h1, h2, h3, h4⟩ := h e (List.mem_cons_self e m)
    have ihm := ih (fun x hx => h x (List.mem_cons_of_mem e hx))
    simp only [List.map_cons, linesToPairs]
    rw [tsv_line_data e, pySplitWs_pair e.1.data e.2.data h3 h4 h1 h2, ihm]

theorem call_generate_commands_five (a b c d e : PyVal) :
    call_generate_commands [a, b, c, d, e] = .error .typeError := by
  cases a <;> rfl

theorem to_array_typeError (fwd_files : List String) (rev_files : Option (List String))
    (reference : String) (threads : Nat) (environment : String)
    (prep_columns : List String) (qc_ref_db : String) (listing : List String)
    (out_dir url job_id : String)
    (hdb : ∃ d, resolve_reference qc_ref_db listing reference = .ok d)
    (hsn : "sample_name" ∈ prep_columns) (hrp : "run_prefix" ∈ prep_columns) :
    fastp_minimap2_to_array fwd_files rev_files reference threads environment
      prep_columns qc_ref_db listing out_dir url job_id = .error .typeError := by
  obtain ⟨d, hd⟩ := hdb
  unfold fastp_minimap2_to_array
  rw [hd]
  simp only [hsn, hrp, if_true, if_pos]
  rw [call_generate_commands_five]

/-- Claim C1, counterexample: at a concrete invocation of the command builder
`_generate_commands`, the emitted command is the filled-in ivar-trim template,
and it is not an instance of any of the four fastp/minimap2 pipeline variants
of the (has-reverse, has-reference) table, under any substitution of template
parameters. -/
theorem generate_commands_emits_ivar_not_fastp :
    (generate_commands ["s1.bam"] "primers.bed" "2" "/out").1 =
      ["ivar trim -x 2 -e -b primers.bed -i s1.bam -p /out/s1.bam"] ∧
    ¬ IsFourVariantInstance "ivar trim -x 2 -e -b primers.bed -i s1.bam -p /out/s1.bam" := by
  constructor
  · rfl
  · intro h
    have h16 := fourVariant_starts_fastp _ h
    have hne : ("ivar trim -x 2 -e -b primers.bed -i s1.bam -p /out/s1.bam").data.take 16 ≠
        ("fastp -l 100 -i ").data := by decide
    exact hne h16

/-- Claim C1, amended: every command emitted by `_generate_commands` is an
instance of the single ivar-trim template `IVAR_TRIM_CMD`, filled with the
invocation-wide `primer`, `nprocs` and `out_dir` and the sample's path and
base name; the same template applies uniformly to every sample of the
invocation, and no boolean pair selects among pipeline variants. -/
theorem generate_commands_uniform_ivar_template (files : List String)
    (primer nprocs out_dir : String) :
    (generate_commands files primer nprocs out_dir).1 =
      files.map (fun bam => IVAR_TRIM_CMD_filled nprocs primer out_dir bam (basename bam)) := by
  rw [generate_commands_eq_map]

/-- Claim C2: whenever the reference resolves and the prep-info table has the
`sample_name` and `run_prefix` columns, `fastp_minimap2_to_array` reaches the
call `_generate_commands(fwd_seqs, rev_seqs, database, params['threads'],
out_dir)`, whose five positional arguments do not fit the callee's four
parameters, and raises `TypeError` there -- before the details file, either
qsub script or the manifest file is written (the `ok` result carrying those
files is never produced) and without returning the three file paths. -/
theorem fastp_minimap2_to_array_type_error (fwd_files : List String)
    (rev_files : Option (List String)) (reference : String) (threads : Nat)
    (environment : String) (prep_columns : List String) (qc_ref_db : String)
    (listing : List String) (out_dir url job_id : String)
    (hdb : ∃ d, resolve_reference qc_ref_db listing reference = Except.ok d)
    (hsn : "sample_name" ∈ prep_columns) (hrp : "run_prefix" ∈ prep_columns) :
    fastp_minimap2_to_array fwd_files rev_files reference threads environment
      prep_columns qc_ref_db listing out_dir url job_id = .error .typeError :=
  to_array_typeError fwd_files rev_files reference threads environment
    prep_columns qc_ref_db listing out_dir url job_id hdb hsn hrp

/-- Witness for claim C2 at a concrete input: paired-end files, no reference,
a prep table with both columns. -/
theorem fastp_minimap2_to_array_type_error_witness :
    (∃ d, resolve_reference "/db" [] "None" = Except.ok d) ∧
    ("sample_name" ∈ ["sample_name", "run_prefix"]) ∧
    ("run_prefix" ∈ ["sample_name", "run_prefix"]) ∧
    fastp_minimap2_to_array ["S1_R1.fastq.gz"] (some ["S1_R2.fastq.gz"]) "None" 2
      "source activate qp" ["sample_name", "run_prefix"] "/db" [] "/out" "some-url"
      "job1" = .error .typeError :=
  ⟨⟨none, rfl⟩, by decide, by decide,
    fastp_minimap2_to_array_type_error ["S1_R1.fastq.gz"] (some ["S1_R2.fastq.gz"])
      "None" 2 "source activate qp" ["sample_name", "run_prefix"] "/db" [] "/out"
      "some-url" "job1" ⟨none, rfl⟩ (by decide) (by decide)⟩

/-- Claim C3, counterexample: with two catalog entries matching the requested
name as a substring, the lookup does not fail -- it silently returns the
resolved path of the first match. -/
theorem resolve_reference_ambiguous_first_match :
    ((get_dbs_list "/db" ["cov1.bed", "cov2.bed"]).filter
      (fun db => strContains db "cov")).length = 2 ∧
    resolve_reference "/db" ["cov1.bed", "cov2.bed"] "cov" =
      Except.ok (some "/db/cov1.bed") := by
  constructor
  · decide
  · rfl

/-- Claim C3, amended: for a non-`'None'` reference name, the lookup raises
an `IndexError` when no catalog entry contains the name as a substring, and
otherwise returns the resolved path (`join(QC_REFERENCE_DB, db)`) of the
first matching entry -- in particular of the unique entry when exactly one
matches, but with no failure on an ambiguous match. -/
theorem resolve_reference_zero_fails_first_wins (qc_ref_db : String)
    (listing : List String) (reference : String) (h : reference ≠ "None") :
    ((∀ db ∈ get_dbs_list qc_ref_db listing, strContains db reference = false) →
      resolve_reference qc_ref_db listing reference = .error .indexError) ∧
    (∀ db, ((get_dbs_list qc_ref_db listing).filter
        (fun x => strContains x reference)).head? = some db →
      resolve_reference qc_ref_db listing reference = .ok (some (joinPath qc_ref_db db))) := by
  constructor
  · intro hall
    have hnil : (get_dbs_list qc_ref_db listing).filter
        (fun x => strContains x reference) = [] := by
      rw [List.filter_eq_nil_iff]
      intro a ha
      simp [hall a ha]
    unfold resolve_reference
    rw [if_neg h]
    simp only [hnil, List.map_nil]
  · intro db hdb
    obtain ⟨rest, hrest⟩ : ∃ rest, (get_dbs_list qc_ref_db listing).filter
        (fun x => strContains x reference) = db :: rest := by
      cases hfil : (get_dbs_list qc_ref_db listing).filter
          (fun x => strContains x reference) with
      | nil => rw [hfil] at hdb; exact absurd hdb (by simp)
      | cons a t =>
        rw [hfil] at hdb
        simp only [List.head?_cons, Option.some.injEq] at hdb
        exact ⟨t, by rw [hdb]⟩
    unfold resolve_reference
    rw [if_neg h]
    simp only [hrest, List.map_cons]

/-- Witness for claim C3's amended statement: a single matching entry
resolves to its path under the catalog directory. -/
theorem resolve_reference_zero_fails_first_wins_witness :
    (("artifacts" : String) ≠ "None") ∧
    resolve_reference "/db" ["artifacts.bed", "other.bed"] "artifacts" =
      Except.ok (some "/db/artifacts.bed") := by
  constructor
  · decide
  · have happ := (resolve_reference_zero_fails_first_wins "/db"
      ["artifacts.bed", "other.bed"] "artifacts" (by decide)).2 "artifacts.bed" (by decide)
    rw [happ]
    rfl

/-- Claim C4: the command builder emits exactly one command per input file --
the command list's length equals the input file list's length (the code's
builder iterates a single file list, so the paired/single distinction of the
claim collapses to this one statement). -/
theorem generate_commands_one_command_per_file (files : List String)
    (primer nprocs out_dir : String) (h : files ≠ []) :
    (generate_commands files primer nprocs out_dir).1.length = files.length := by
  rw [generate_commands_eq_map]
  simp

/-- Witness for claim C4 at a two-sample invocation. -/
theorem generate_commands_one_command_per_file_witness :
    ((["a.fastq.gz", "b.fastq.gz"] : List String) ≠ []) ∧
    (generate_commands ["a.fastq.gz", "b.fastq.gz"] "p.bed" "2" "/out").1.length = 2 :=
  ⟨by decide,
    generate_commands_one_command_per_file ["a.fastq.gz", "b.fastq.gz"] "p.bed" "2" "/out"
      (by decide)⟩

/-- Claim C5, counterexample: with a non-empty reverse list of a different
length than the forward list, the invocation does not fail with the
configuration-error class (`ValueError`, the class the module uses for its
explicit configuration check); it fails with the call-arity `TypeError`,
exactly as every other input does. -/
theorem mismatched_lengths_not_config_error :
    fastp_minimap2_to_array ["a.fastq.gz", "b.fastq.gz"] (some ["c.fastq.gz"]) "None" 2
      "env" ["sample_name", "run_prefix"] "/db" [] "/out" "url" "job2" =
      .error .typeError ∧
    (Except.error PyErr.typeError : Except PyErr ScriptFiles) ≠
      .error (.valueError "Missing run_prefix column in your preparation") := by
  constructor
  · exact to_array_typeError ["a.fastq.gz", "b.fastq.gz"] (some ["c.fastq.gz"]) "None" 2
      "env" ["sample_name", "run_prefix"] "/db" [] "/out" "url" "job2"
      ⟨none, rfl⟩ (by decide) (by decide)
  · intro hcontra
    exact PyErr.noConfusion (Except.error.inj hcontra)

/-- Claim C5, amended: when the reverse list is non-empty and of a different
length than the forward list (and the invocation otherwise reaches the builder
call), `fastp_minimap2_to_array` fails immediately -- but with the `TypeError`
of the five-against-four argument mismatch, which hits every input alike; the
code performs no list-length validation and raises no length-specific
configuration error. -/
theorem to_array_mismatched_lengths_type_error (fwd_files : List String)
    (rev : List String) (reference : String) (threads : Nat)
    (environment : String) (prep_columns : List String) (qc_ref_db : String)
    (listing : List String) (out_dir url job_id : String)
    (hdb : ∃ d, resolve_reference qc_ref_db listing reference = Except.ok d)
    (hsn : "sample_name" ∈ prep_columns) (hrp : "run_prefix" ∈ prep_columns)
    (hne : rev ≠ []) (hlen : rev.length ≠ fwd_files.length) :
    fastp_minimap2_to_array fwd_files (some rev) reference threads environment
      prep_columns qc_ref_db listing out_dir url job_id = .error .typeError :=
  to_array_typeError fwd_files (some rev) reference threads environment
    prep_columns qc_ref_db listing out_dir url job_id hdb hsn hrp

/-- Witness for claim C5's amended statement at a concrete mismatched input. -/
theorem to_array_mismatched_lengths_type_error_witness :
    (∃ d, resolve_reference "/db" [] "None" = Except.ok d) ∧
    ("sample_name" ∈ ["sample_name", "run_prefix"]) ∧
    ("run_prefix" ∈ ["sample_name", "run_prefix"]) ∧
    ((["r1.fastq.gz"] : List String) ≠ []) ∧
    ((["r1.fastq.gz"] : List String).length ≠
      (["f1.fastq.gz", "f2.fastq.gz"] : List String).length) ∧
    fastp_minimap2_to_array ["f1.fastq.gz", "f2.fastq.gz"] (some ["r1.fastq.gz"]) "None"
      2 "env" ["sample_name", "run_prefix"] "/db" [] "/out" "url" "job3" =
      .error .typeError :=
  ⟨⟨none, rfl⟩, by decide, by decide, by decide, by decide,
    to_array_mismatched_lengths_type_error ["f1.fastq.gz", "f2.fastq.gz"] ["r1.fastq.gz"]
      "None" 2 "env" ["sample_name", "run_prefix"] "/db" [] "/out" "url" "job3"
      ⟨none, rfl⟩ (by decide) (by decide) (by decide) (by decide)⟩

/-- Claim C6, counterexample: at a concrete two-sample invocation of the
command builder, every manifest entry carries the single role `trimmed`, so
the manifest is not a forward-role block followed by a reverse-role block. -/
theorem manifest_roles_not_grouped_fwd_rev :
    (generate_commands ["a_R1.fastq.gz", "b_R1.fastq.gz"] "p.bed" "2" "/out").2 =
      [("/out/a_R1.fastq.gz", "trimmed"), ("/out/b_R1.fastq.gz", "trimmed")] ∧
    ¬ RoleGrouped (generate_commands ["a_R1.fastq.gz", "b_R1.fastq.gz"] "p.bed" "2" "/out").2 := by
  have hm : (generate_commands ["a_R1.fastq.gz", "b_R1.fastq.gz"] "p.bed" "2" "/out").2 =
      [("/out/a_R1.fastq.gz", "trimmed"), ("/out/b_R1.fastq.gz", "trimmed")] := rfl
  refine ⟨hm, ?_⟩
  rw [hm]
  rintro ⟨k, hf, hr⟩
  cases k with
  | zero =>
    have hmem : (("/out/a_R1.fastq.gz", "trimmed") : String × String) ∈
        ([("/out/a_R1.fastq.gz", "trimmed"), ("/out/b_R1.fastq.gz", "trimmed")] :
          List (String × String)).drop 0 := by
      rw [List.drop_zero]
      exact List.mem_cons_self _ _
    exact absurd (hr _ hmem) (by decide)
  | succ k' =>
    have hmem : (("/out/a_R1.fastq.gz", "trimmed") : String × String) ∈
        ([("/out/a_R1.fastq.gz", "trimmed"), ("/out/b_R1.fastq.gz", "trimmed")] :
          List (String × String)).take (k' + 1) := by
      rw [List.take_succ_cons]
      exact List.mem_cons_self _ _
    exact absurd (hf _ hmem) (by decide)

/-- Claim C6, amended: the manifest returned by the command builder is a
single contiguous block of `trimmed`-role entries, one per input file in the
input order; no forward-role or reverse-role entries exist. -/
theorem manifest_single_trimmed_block (files : List String)
    (primer nprocs out_dir : String) :
    (generate_commands files primer nprocs out_dir).2 =
      files.map (fun bam => (out_dir ++ "/" ++ basename bam, "trimmed")) ∧
    ∀ e ∈ (generate_commands files primer nprocs out_dir).2, e.2 = "trimmed" := by
  have hmap := generate_commands_eq_map files primer nprocs out_dir
  constructor
  · rw [hmap]
  · intro e he
    rw [hmap] at he
    obtain ⟨bam, _, rfl⟩ := List.mem_map.mp he
    rfl

/-- Claim C7: the manifest entry at index `i` pairs the output path
`{out_dir}/{basename(input file i)}` with its role -- the output base name is
derived from the corresponding input file's base name. -/
theorem manifest_path_is_outdir_basename (files : List String)
    (primer nprocs out_dir : String) (i : Nat) (h : i < files.length) :
    (generate_commands files primer nprocs out_dir).2.get? i =
      some (out_dir ++ "/" ++ basename (files.get ⟨i, h⟩), "trimmed") := by
  rw [generate_commands_eq_map]
  rw [List.get?_map, List.get?_eq_get h]
  rfl

/-- Witness for claim C7 at a concrete single-sample invocation. -/
theorem manifest_path_is_outdir_basename_witness :
    (0 < (["/in/s1.fastq.gz"] : List String).length) ∧
    (generate_commands ["/in/s1.fastq.gz"] "p.bed" "2" "/out").2.get? 0 =
      some ("/out" ++ "/" ++ basename "/in/s1.fastq.gz", "trimmed") :=
  ⟨by decide,
    manifest_path_is_outdir_basename ["/in/s1.fastq.gz"] "p.bed" "2" "/out" 0 (by decide)⟩

/-- Claim C8, counterexample: the catalog enumeration applies no exclusion --
a human reference stored as a `*.bed` file in the catalog directory is
returned like any other entry. -/
theorem get_dbs_list_includes_human_bed :
    get_dbs_list "/db" ["artifacts.bed", "human.bed"] = ["artifacts.bed", "human.bed"] ∧
    "human.bed" ∈ get_dbs_list "/db" ["artifacts.bed", "human.bed"] := by
  constructor
  · rfl
  · decide

/-- Claim C8, amended: the enumeration returns exactly one name -- the file's
base name, which is the file name itself -- per `*.bed` file of the catalog
directory, in directory order, excluding nothing; the human reference is
absent only by the convention that it is not stored as a `*.bed` file there. -/
theorem get_dbs_list_names_bed_files (folder : String) (listing : List String)
    (h : ∀ n ∈ listing, ∀ c ∈ n.data, (c != '/') = true) :
    get_dbs_list folder listing =
      listing.filter (fun n => strEndsWith n ".bed" && !(strStartsWith n ".")) := by
  unfold get_dbs_list glob_bed
  rw [List.map_map]
  have hcong : ∀ n ∈ listing.filter (fun n => strEndsWith n ".bed" && !(strStartsWith n ".")),
      (basename ∘ fun n => folder ++ "/" ++ n) n = id n := by
    intro n hn
    exact basename_append folder n (h n (List.mem_of_mem_filter hn))
  rw [List.map_congr_left hcong, List.map_id]

/-- Witness for claim C8's amended statement on a concrete directory listing
holding one matching and one non-matching file. -/
theorem get_dbs_list_names_bed_files_witness :
    (∀ n ∈ (["refA.bed", "notes.txt"] : List String), ∀ c ∈ n.data, (c != '/') = true) ∧
    get_dbs_list "/db" ["refA.bed", "notes.txt"] =
      (["refA.bed", "notes.txt"] : List String).filter
        (fun n => strEndsWith n ".bed" && !(strStartsWith n ".")) :=
  ⟨by decide, get_dbs_list_names_bed_files "/db" ["refA.bed", "notes.txt"] (by decide)⟩

/-- Claim C9: the main qsub script declares the array directive
`#PBS -t 1-N%MAX_RUNNING` with `N` the emitted command count and
`MAX_RUNNING = 8`, and its body computes `step = PBS_ARRAYID - 0` and runs
`eval` on `head -n step | tail -n 1` of the details file; the details file
holds one command per line, and for every in-range task number `k` the
`head`/`tail` pipeline selects exactly command `k` (1-based) of the emitted
command list. -/
theorem array_script_directive_and_selection (commands : List String) (threads : Nat)
    (environment out_dir job_id : String) (k : Nat)
    (hne : commands ≠ [])
    (hnl : ∀ s ∈ commands, ∀ c ∈ s.data, (c == '\n') = false)
    (hk1 : 1 ≤ k) (hkn : k ≤ commands.length) :
    ("#PBS -t 1-" ++ toString commands.length ++ "%" ++ toString MAX_RUNNING) ∈
      mainQsubLines commands.length threads environment out_dir job_id
        (details_name out_dir) ∧
    toString MAX_RUNNING = "8" ∧
    "offset=$\x7bPBS_ARRAYID\x7d" ∈ mainQsubLines commands.length threads environment
      out_dir job_id (details_name out_dir) ∧
    "step=$(( $offset - 0 ))" ∈ mainQsubLines commands.length threads environment
      out_dir job_id (details_name out_dir) ∧
    ("cmd=$(head -n $step " ++ details_name out_dir ++ " | tail -n 1)") ∈
      mainQsubLines commands.length threads environment out_dir job_id
        (details_name out_dir) ∧
    "eval $cmd" ∈ mainQsubLines commands.length threads environment out_dir job_id
      (details_name out_dir) ∧
    splitLines (detailsContent commands) = commands.map String.data ∧
    shellHeadTail k (detailsContent commands) = (commands.get? (k - 1)).map String.data := by
  refine ⟨?_, rfl, ?_, ?_, ?_, ?_, ?_, ?_⟩
  · simp [mainQsubLines]
  · simp [mainQsubLines]
  · simp [mainQsubLines]
  · simp [mainQsubLines]
  · simp [mainQsubLines]
  · exact splitLines_join commands hne hnl
  · unfold shellHeadTail
    rw [show splitOnP (fun c => c == '\n') (detailsContent commands).data =
        commands.map String.data from splitLines_join commands hne hnl]
    rw [getLast?_take _ k hk1 (by simpa using hkn)]
    exact List.get?_map String.data commands (k - 1)

/-- Witness for claim C9 on a two-command plan, selecting task number 2. -/
theorem array_script_directive_and_selection_witness :
    ((["echo a", "echo b"] : List String) ≠ []) ∧
    ((["echo a", "echo b"] : List String).all
      (fun s => s.data.all (fun c => !(c == '\n')))) = true ∧
    (("#PBS -t 1-" ++ toString (["echo a", "echo b"] : List String).length ++ "%" ++
        toString MAX_RUNNING) ∈
      mainQsubLines (["echo a", "echo b"] : List String).length 2 "env" "/out" "job"
        (details_name "/out") ∧
    toString MAX_RUNNING = "8" ∧
    "offset=$\x7bPBS_ARRAYID\x7d" ∈ mainQsubLines
      (["echo a", "echo b"] : List String).length 2 "env" "/out" "job"
      (details_name "/out") ∧
    "step=$(( $offset - 0 ))" ∈ mainQsubLines
      (["echo a", "echo b"] : List String).length 2 "env" "/out" "job"
      (details_name "/out") ∧
    ("cmd=$(head -n $step " ++ details_name "/out" ++ " | tail -n 1)") ∈
      mainQsubLines (["echo a", "echo b"] : List String).length 2 "env" "/out" "job"
        (details_name "/out") ∧
    "eval $cmd" ∈ mainQsubLines (["echo a", "echo b"] : List String).length 2 "env"
      "/out" "job" (details_name "/out") ∧
    splitLines (detailsContent ["echo a", "echo b"]) =
      (["echo a", "echo b"] : List String).map String.data ∧
    shellHeadTail 2 (detailsContent ["echo a", "echo b"]) =
      ((["echo a", "echo b"] : List String).get? (2 - 1)).map String.data) :=
  ⟨by decide, by decide,
    array_script_directive_and_selection ["echo a", "echo b"] 2 "env" "/out" "job" 2
      (by decide) (by decide) (by decide) (by decide)⟩

/-- Claim C10, counterexample: a manifest entry whose path is the empty string
(which contains no whitespace, as the claim requires) writes the line
`\traw_forward_seqs`, which `str.split()` reads back as a single field, so the
finishing step raises a `ValueError` instead of recovering the manifest. -/
theorem manifest_roundtrip_fails_empty_path :
    (("" : String).data.all (fun c => !isPyWs c)) = true ∧
    (("raw_forward_seqs" : String).data.all (fun c => !isPyWs c)) = true ∧
    outFilesTsv [("", "raw_forward_seqs")] = "\traw_forward_seqs" ∧
    fastp_minimap2 (outFilesTsv [("", "raw_forward_seqs")]) =
      .error (.valueError "unpack") := by
  refine ⟨rfl, by decide, rfl, rfl⟩

/-- Claim C10, amended: for every manifest whose paths and role labels are
non-empty and contain no whitespace, writing the tab-separated manifest file
and reading it back in the finishing step recovers exactly the same ordered
list of (path, role) pairs, returned as the files of the single
`Filtered files` / `per_sample_FASTQ` artifact. -/
theorem manifest_roundtrip_exact (m : List (String × String))
    (h : ∀ e ∈ m, e.1.data ≠ [] ∧ e.2.data ≠ [] ∧
      (∀ c ∈ e.1.data, isPyWs c = false) ∧ (∀ c ∈ e.2.data, isPyWs c = false)) :
    fastp_minimap2 (outFilesTsv m) =
      .ok (true, [⟨"Filtered files", "per_sample_FASTQ", m⟩], "") := by
  cases m with
  | nil => rfl
  | cons e0 m' =>
    unfold fastp_minimap2 outFilesTsv
    have hlines_ne : (e0 :: m').map (fun e => e.1 ++ "\t" ++ e.2) ≠ [] := by simp
    have hnl : ∀ s ∈ (e0 :: m').map (fun x => x.1 ++ "\t" ++ x.2),
        ∀ c ∈ s.data, (c == '\n') = false := by
      intro s hs c hc
      obtain ⟨x, hx, rfl⟩ := List.mem_map.mp hs
      obtain ⟨h1, h2, h3, h4⟩ := h x hx
      rw [tsv_line_data] at hc
      rcases List.mem_append.mp hc with h5 | h5
      · exact isPyWs_false_ne_nl c (h3 c h5)
      · rcases List.mem_cons.mp h5 with rfl | h6
        · rfl
        · exact isPyWs_false_ne_nl c (h4 c h6)
    have hnonempty : ∀ s ∈ (e0 :: m').map (fun x => x.1 ++ "\t" ++ x.2),
        s.data ≠ [] := by
      intro s hs
      obtain ⟨x, hx, rfl⟩ := List.mem_map.mp hs
      rw [tsv_line_data]
      intro hemp
      have hlencontra := congrArg List.length hemp
      simp at hlencontra
    rw [pyReadlines_join _ hlines_ne hnl hnonempty, List.map_map]
    have hcomp : List.map (String.data ∘ fun e : String × String => e.1 ++ "\t" ++ e.2)
        (e0 :: m') =
        List.map (fun e : String × String => (e.1 ++ "\t" ++ e.2).data) (e0 :: m') := rfl
    rw [hcomp, linesToPairs_map (e0 :: m') h]

/-- Witness for claim C10's amended statement: a two-entry manifest with
non-empty whitespace-free paths and roles survives the write/read round trip
exactly. -/
theorem manifest_roundtrip_exact_witness :
    (([("/out/a.fastq.gz", "raw_forward_seqs"), ("/out/b.fastq.gz", "raw_reverse_seqs")] :
        List (String × String)).all
      (fun e => !e.1.data.isEmpty && !e.2.data.isEmpty &&
        e.1.data.all (fun c => !isPyWs c) && e.2.data.all (fun c => !isPyWs c))) = true ∧
    fastp_minimap2 (outFilesTsv [("/out/a.fastq.gz", "raw_forward_seqs"),
        ("/out/b.fastq.gz", "raw_reverse_seqs")]) =
      .ok (true, [⟨"Filtered files", "per_sample_FASTQ",
        [("/out/a.fastq.gz", "raw_forward_seqs"),
         ("/out/b.fastq.gz", "raw_reverse_seqs")]⟩], "") :=
  ⟨by decide,
    manifest_roundtrip_exact
      [("/out/a.fastq.gz", "raw_forward_seqs"), ("/out/b.fastq.gz", "raw_reverse_seqs")]
      (by decide)⟩
